import Mathlib

/-!
Verification of the book-catalog GraphQL server (`src/index.ts`).

The server keeps a mutable array `books` of Book records and exposes
resolvers `allBooks`, `getBook`, `addBook`, `deleteBook`, `updateBook`
plus a `bookSub` subscription fed by a pubsub topic.  We embed the store
as a `List Book`, each resolver as a pure function taking and returning
the store, and the effect order of `addBook` (push, then publish) as an
explicit event list.  GraphQL `Float` values are modelled as `Rat`,
GraphQL `Int` as `Int`, and nullable values as `Option`.  JavaScript
truthiness (`x || y`) on the relevant types is modelled field by field:
a string is falsy iff empty, a number is falsy iff zero, `null` and
`undefined` are falsy.
-/

namespace BookServer

/-- The `Book` record shape stored in the `books` array.  Every stored
book has a concrete `title`, `description`, `author` and `year` (the
seeds supply all of them and `addBook` always sets them); `rating` may
be `null`, hence `Option Rat`. -/
structure Book where
  id : String
  title : String
  description : String
  rating : Option Rat
  author : String
  year : Int
  deriving Repr, DecidableEq

/-- The initial contents of the `books` array (lines 69-132 of
`src/index.ts`), verbatim. -/
def books₀ : List Book := [
  { id := "n12clfp3K",
    title := "The Guardians",
    description := "In the small Florida town of Seabrook, a young lawyer named Keith Russo was shot dead at his desk as he worked late one night. The killer left no clues. There were no witnesses, no one with a motive. But the police soon came to suspect Quincy Miller, a young black man who was once a client of Russo’s...",
    rating := some (9/2),
    author := "John Grisham",
    year := 1970 },
  { id := "TaFvKQmgQ",
    title := "The Girl on the Train",
    description := "Rachel catches the same commuter train every morning. She knows it will wait at the same signal each time, overlooking a row of back gardens. She’s even started to feel like she knows the people who live in one of the houses. ‘Jess and Jason’, she calls them. Their life – as she sees it – is perfect. If only Rachel could be that happy...",
    rating := some (21/5),
    author := "John Grisham",
    year := 2016 },
  { id := "3y-67bb6Z",
    title := "Fahrenheit 451",
    description := "The terrifyingly prophetic novel of a post-literate future.",
    rating := some (23/5),
    author := "Ray Bradbury",
    year := 1953 },
  { id := "Rw3sPphui",
    title := "To Kill a Mockingbird",
    description := "The perennially beloved and treacly account of growing up in a small Southern town during the Depression....To read the novel is, for most, an exercise in wish-fulfillment and self-congratulation, a chance to consider thorny issues of race and prejudice from a safe distance and with the comfortable certainty that the reader would never harbor the racist attitudes espoused by the lowlifes in the novel.",
    rating := some (23/5),
    author := "Harper Lee",
    year := 1960 },
  { id := "b8eWGRQo6",
    title := "The Shining",
    description := "Jack Torrance’s new job at the Overlook Hotel is the perfect chance for a fresh start. As the off-season caretaker at the atmospheric old hotel, he’ll have plenty of time to spend reconnecting with his family and working on his writing. But as the harsh winter weather sets in, the idyllic location feels ever more remote . . . and more sinister",
    rating := some (47/10),
    author := "Stephen King",
    year := 1980 },
  { id := "HVL-jHzdH",
    title := "Foundation",
    description := "The first novel in Isaac Asimov’s classic science-fiction masterpiece, the Foundation series",
    rating := some (9/2),
    author := "Isaak Asimov",
    year := 1942 },
  { id := "eqbOaeNk-",
    title := "The Catcher in the Rye",
    description := "The hero-narrator of The Catcher in the Rye is an ancient child of sixteen, a native New Yorker named Holden Caulfield.Through circumstances that tend to preclude adult, secondhand description, he leaves his prep school in Pennsylvania and goes underground in New York City for three days.",
    rating := some (23/5),
    author := "J. D. Salinger",
    year := 1951 }
]

/-! ## JavaScript truthiness helpers (`x || y`) -/

/-- `v || old` where `v` is a nullable string: `undefined`, `null` and
`""` all select `old`. -/
def jsOrStr (v : Option String) (old : String) : String :=
  match v with
  | none => old
  | some s => if s = "" then old else s

/-- `v || old` where `v` is a nullable number and `old` a number:
`undefined`, `null` and `0` all select `old`. -/
def jsOrInt (v : Option Int) (old : Int) : Int :=
  match v with
  | none => old
  | some n => if n = 0 then old else n

/-- `v || old` where `v` is a nullable float and `old` is also nullable
(used for `rating`): `undefined`, `null` and `0` all select `old`. -/
def jsOrRat (v : Option Rat) (old : Option Rat) : Option Rat :=
  match v with
  | none => old
  | some r => if r = 0 then old else some r

/-! ## Substring containment (JavaScript `String.prototype.includes`) -/

/-- `leadsList needle hay` holds when `needle` occurs at the very start
of `hay` (list-of-characters level). -/
def leadsList : List Char → List Char → Bool
  | [], _ => true
  | _ :: _, [] => false
  | a :: as, b :: bs => a = b && leadsList as bs

/-- `subList needle hay`: `needle` occurs contiguously somewhere inside
`hay`.  Models `hay.includes(needle)` on the character lists. -/
def subList (needle : List Char) : List Char → Bool
  | [] => leadsList needle []
  | b :: bs => leadsList needle (b :: bs) || subList needle bs

/-- `hay.includes(needle)` on strings. -/
def strIncludes (hay needle : String) : Bool :=
  subList needle.toList hay.toList

/-! ## Query resolvers -/

/-- The `allBooks` resolver (lines 138-145): with a falsy `search`
(absent, `null`, or the empty string) it returns the whole array,
otherwise it filters by case-insensitive title containment via
`book.title.toLowerCase().includes(search.toLowerCase())`. -/
def allBooks (books : List Book) (search : Option String) : List Book :=
  match search with
  | none => books
  | some s =>
    if s = "" then books
    else books.filter (fun book => strIncludes book.title.toLower s.toLower)

/-- The `getBook` resolver (line 147): `books.find((book) => book.id === id)`;
`none` models the `undefined` that `find` yields on no match. -/
def getBook (books : List Book) (id : String) : Option Book :=
  books.find? (fun book => book.id = id)

/-! ## Mutation resolvers -/

/-- The `BookInput` shape after GraphQL input coercion: `title`,
`author` and `year` are declared non-null (`String!`, `String!`,
`Int!`), `description` and `rating` are nullable. -/
structure BookInput where
  title : String
  description : Option String
  rating : Option Rat
  author : String
  year : Int
  deriving Repr, DecidableEq

/-- Raw create input before GraphQL coercion: any field may be
absent/null. -/
structure RawBookInput where
  title : Option String
  description : Option String
  rating : Option Rat
  author : Option String
  year : Option Int
  deriving Repr, DecidableEq

/-- The single error the create path can produce. -/
inductive GQLError where
  | validationError
  deriving Repr, DecidableEq

/-- Modelled from the spec: the schema-validation collaborator (the
GraphQL layer configured by the `BookInput` declaration at lines 33-39,
whose executor is not part of this repository) rejects, before the
resolver runs, any create request missing a field the schema marks
non-null (`title: String!`, `author: String!`, `year: Int!`).  Non-null
coercion checks presence only: an empty string is a present value and
passes. -/
def coerceBookInput (raw : RawBookInput) : Except GQLError BookInput :=
  match raw.title, raw.author, raw.year with
  | some t, some a, some y =>
    .ok { title := t, description := raw.description, rating := raw.rating,
          author := a, year := y }
  | _, _, _ => .error .validationError

/-- Observable effects of a mutation, in program order. -/
inductive Action where
  | store (b : Book) : Action
  | publish (topic : String) (payload : Book) : Action
  deriving Repr, DecidableEq

/-- The book record built by `addBook` (lines 152-159): a fresh id from
the generator, `description: input.description || ""`,
`rating: input.rating || null`, `year` and `author` copied. -/
def mkNewBook (input : BookInput) (newId : String) : Book :=
  { id := newId,
    title := input.title,
    description := jsOrStr input.description "",
    rating := jsOrRat input.rating none,
    year := input.year,
    author := input.author }

/-- The `addBook` resolver (lines 151-166).  The id generator
(`nanoid()`) is external nondeterminism, so the fresh id is a
parameter.  Returns the new store (`books.push(newBook)` appends), the
returned book, and the effect list in program order: the store append
(line 160) happens before the publish on topic `"bookSub"`
(line 163). -/
def addBook (books : List Book) (input : BookInput) (newId : String) :
    List Book × Book × List Action :=
  let newBook := mkNewBook input newId
  (books ++ [newBook], newBook,
   [Action.store newBook, Action.publish "bookSub" newBook])

/-- The create path as seen by a client: GraphQL input coercion, then
the `addBook` resolver. -/
def createBook (books : List Book) (raw : RawBookInput) (newId : String) :
    Except GQLError (List Book × Book × List Action) :=
  match coerceBookInput raw with
  | .error e => .error e
  | .ok input => .ok (addBook books input newId)

/-- The `deleteBook` resolver (lines 168-175): `findIndex` then
`splice(index, 1)` removes the first book with the given id and returns
it; otherwise the store is untouched and `null` is returned. -/
def deleteBook (books : List Book) (id : String) : List Book × Option Book :=
  match books with
  | [] => ([], none)
  | b :: rest =>
    if b.id = id then (rest, some b)
    else
      let r := deleteBook rest id
      (b :: r.1, r.2)

/-- The `UpdateBookInput` shape (lines 41-48): only `id` is non-null. -/
structure UpdateBookInput where
  id : String
  title : Option String
  description : Option String
  rating : Option Rat
  author : Option String
  year : Option Int
  deriving Repr, DecidableEq

/-- The field merge performed in place on the found book
(lines 181-186): each field is `input.f || bookToUpdate.f`; the `id`
field is never assigned. -/
def applyUpdate (book : Book) (input : UpdateBookInput) : Book :=
  { book with
    title := jsOrStr input.title book.title,
    description := jsOrStr input.description book.description,
    author := jsOrStr input.author book.author,
    year := jsOrInt input.year book.year,
    rating := jsOrRat input.rating book.rating }

/-- The `updateBook` resolver (lines 177-190): `find` locates the first
book whose id matches `input.id`, mutates it in place via the truthy
merge, and returns it; if none matches, the store is untouched and
`null` is returned. -/
def updateBook (books : List Book) (input : UpdateBookInput) :
    List Book × Option Book :=
  match books with
  | [] => ([], none)
  | b :: rest =>
    if b.id = input.id then
      (applyUpdate b input :: rest, some (applyUpdate b input))
    else
      let r := updateBook rest input
      (b :: r.1, r.2)

/-! ## Subscription -/

/-- The payload envelope published by `addBook`:
`{ addBook: newBook }` (line 163). -/
structure BookSubPayload where
  addBook : Book
  deriving Repr, DecidableEq

/-- The `bookSub` subscription resolver (lines 196-198): it returns
`payload.addBook`, unwrapping the envelope and nothing more. -/
def bookSubResolve (payload : BookSubPayload) : Book :=
  payload.addBook

/-! ## Operation sequences over the store -/

/-- One store-mutating operation; `create` carries the id the external
generator produced for that call. -/
inductive Op where
  | create (input : BookInput) (newId : String) : Op
  | update (input : UpdateBookInput) : Op
  | delete (id : String) : Op
  deriving Repr, DecidableEq

/-- The store after one operation. -/
def stepOp (books : List Book) : Op → List Book
  | .create input newId => (addBook books input newId).1
  | .update input => (updateBook books input).1
  | .delete id => (deleteBook books id).1

/-- The store after a sequence of operations. -/
def runOps (books : List Book) : List Op → List Book
  | [] => books
  | op :: rest => runOps (stepOp books op) rest

/-- The generator freshness discipline along a run: each `create` is
given an id not currently present in the store.  This is the contract
of `nanoid()`, the unique-id generator used at line 153. -/
def FreshRun (books : List Book) : List Op → Prop
  | [] => True
  | op :: rest =>
    (match op with
     | .create _ newId => ∀ b ∈ books, b.id ≠ newId
     | _ => True) ∧ FreshRun (stepOp books op) rest

/-- The ids present in a store. -/
def storeIds (books : List Book) : List String :=
  books.map (fun b => b.id)

/-! ## Lemmas about substring containment -/

theorem leadsList_iff (n h : List Char) :
    leadsList n h = true ↔ ∃ post, h = n ++ post := by
  induction n generalizing h with
  | nil => simp [leadsList]
  | cons a as ih =>
    cases h with
    | nil => simp [leadsList]
    | cons b bs =>
      simp only [leadsList, Bool.and_eq_true, decide_eq_true_eq, ih,
        List.cons_append, List.cons.injEq]
      constructor
      · rintro ⟨rfl, post, rfl⟩
        exact ⟨post, rfl, rfl⟩
      · rintro ⟨post, rfl, rfl⟩
        exact ⟨rfl, post, rfl⟩

theorem subList_iff (n h : List Char) :
    subList n h = true ↔ ∃ pre post, h = pre ++ n ++ post := by
  induction h with
  | nil =>
    simp only [subList, leadsList_iff]
    constructor
    · rintro ⟨post, hp⟩
      exact ⟨[], post, by simpa using hp⟩
    · rintro ⟨pre, post, hp⟩
      rw [List.nil_eq, List.append_assoc, List.append_eq_nil] at hp
      exact ⟨post, by simp [hp.1, (List.append_eq_nil.mp hp.2).1,
        (List.append_eq_nil.mp hp.2).2]⟩
  | cons b bs ih =>
    simp only [subList, Bool.or_eq_true, leadsList_iff, ih]
    constructor
    · rintro (⟨post, hp⟩ | ⟨pre, post, rfl⟩)
      · exact ⟨[], post, by simpa using hp⟩
      · exact ⟨b :: pre, post, rfl⟩
    · rintro ⟨pre, post, hp⟩
      cases pre with
      | nil => exact Or.inl ⟨post, by simpa using hp⟩
      | cons x xs =>
        rw [List.cons_append, List.cons_append, List.cons.injEq] at hp
        exact Or.inr ⟨xs, post, by simpa using hp.2⟩

/-! ## Lemmas about `getBook` -/

theorem getBook_eq_none_iff (books : List Book) (id : String) :
    getBook books id = none ↔ ∀ b ∈ books, b.id ≠ id := by
  simp [getBook, List.find?_eq_none]

/-! ## Lemmas about `updateBook` -/

/-- An update input whose every mergeable field is falsy (absent, null,
empty string, or zero). -/
def FalsyUpdate (input : UpdateBookInput) : Prop :=
  (input.title = none ∨ input.title = some "") ∧
  (input.description = none ∨ input.description = some "") ∧
  (input.author = none ∨ input.author = some "") ∧
  (input.year = none ∨ input.year = some 0) ∧
  (input.rating = none ∨ input.rating = some 0)

theorem applyUpdate_id (book : Book) (input : UpdateBookInput) :
    (applyUpdate book input).id = book.id := rfl

theorem applyUpdate_falsy (book : Book) (input : UpdateBookInput)
    (h : FalsyUpdate input) : applyUpdate book input = book := by
  obtain ⟨h1, h2, h3, h4, h5⟩ := h
  simp only [applyUpdate]
  rcases h1 with h1 | h1 <;> rcases h2 with h2 | h2 <;>
    rcases h3 with h3 | h3 <;> rcases h4 with h4 | h4 <;>
    rcases h5 with h5 | h5 <;>
  simp [h1, h2, h3, h4, h5, jsOrStr, jsOrInt, jsOrRat]

theorem updateBook_not_found (books : List Book) (input : UpdateBookInput)
    (h : ∀ b ∈ books, b.id ≠ input.id) :
    updateBook books input = (books, none) := by
  induction books with
  | nil => rfl
  | cons b rest ih =>
    have hb : b.id ≠ input.id := h b (List.mem_cons_self b rest)
    simp only [updateBook, if_neg hb,
      ih (fun x hx => h x (List.mem_cons_of_mem b hx))]

theorem updateBook_found (books : List Book) (input : UpdateBookInput)
    (b' : Book) (h : (updateBook books input).2 = some b') :
    ∃ old, old ∈ books ∧ old.id = input.id ∧
      b' = applyUpdate old input ∧ b' ∈ (updateBook books input).1 := by
  induction books with
  | nil => simp [updateBook] at h
  | cons b rest ih =>
    by_cases hb : b.id = input.id
    · refine ⟨b, List.mem_cons_self b rest, hb, ?_, ?_⟩
      · simp only [updateBook, if_pos hb] at h
        exact (Option.some.injEq _ _ ▸ h).symm
      · simp [updateBook, if_pos hb]
        simp only [updateBook, if_pos hb] at h
        exact Or.inl (Option.some.inj h).symm
    · simp only [updateBook, if_neg hb] at h
      obtain ⟨old, hmem, hid, heq, hstore⟩ := ih h
      exact ⟨old, List.mem_cons_of_mem b hmem, hid, heq,
        by simp only [updateBook, if_neg hb]; exact List.mem_cons_of_mem b hstore⟩

theorem updateBook_ids (books : List Book) (input : UpdateBookInput) :
    storeIds (updateBook books input).1 = storeIds books := by
  induction books with
  | nil => rfl
  | cons b rest ih =>
    by_cases hb : b.id = input.id
    · simp [updateBook, if_pos hb, storeIds, applyUpdate_id]
    · simp only [updateBook, if_neg hb, storeIds, List.map_cons]
      exact congrArg _ ih

theorem updateBook_length (books : List Book) (input : UpdateBookInput) :
    (updateBook books input).1.length = books.length := by
  have := congrArg List.length (updateBook_ids books input)
  simpa [storeIds] using this

theorem updateBook_frame (books : List Book) (input : UpdateBookInput)
    (i : Nat) (h : ∀ b, books[i]? = some b → b.id ≠ input.id) :
    (updateBook books input).1[i]? = books[i]? := by
  induction books generalizing i with
  | nil => simp [updateBook]
  | cons b rest ih =>
    by_cases hb : b.id = input.id
    · cases i with
      | zero => exact absurd hb (h b (by simp))
      | succ j => simp [updateBook, if_pos hb]
    · cases i with
      | zero => simp [updateBook, if_neg hb]
      | succ j =>
        simp only [updateBook, if_neg hb, List.getElem?_cons_succ]
        exact ih j (fun x hx => h x (by simpa using hx))

/-! ## Lemmas about `deleteBook` -/

theorem getBook_cons (x : Book) (rest : List Book) (id : String) :
    getBook (x :: rest) id = if x.id = id then some x else getBook rest id := by
  by_cases hx : x.id = id <;>
    simp [getBook, List.find?_cons_of_pos, List.find?_cons_of_neg, hx]

theorem deleteBook_not_found (books : List Book) (id : String)
    (h : ∀ b ∈ books, b.id ≠ id) : deleteBook books id = (books, none) := by
  induction books with
  | nil => rfl
  | cons b rest ih =>
    have hb : b.id ≠ id := h b (List.mem_cons_self b rest)
    simp only [deleteBook, if_neg hb,
      ih (fun x hx => h x (List.mem_cons_of_mem b hx))]

theorem deleteBook_found (books : List Book) (id : String) (b : Book)
    (h : getBook books id = some b) :
    (deleteBook books id).2 = some b ∧
    (deleteBook books id).1.length + 1 = books.length := by
  induction books with
  | nil => simp [getBook] at h
  | cons x rest ih =>
    rw [getBook_cons] at h
    by_cases hx : x.id = id
    · rw [if_pos hx] at h
      obtain rfl := Option.some.inj h
      simp [deleteBook, if_pos hx]
    · rw [if_neg hx] at h
      obtain ⟨h1, h2⟩ := ih h
      simp only [deleteBook, if_neg hx]
      exact ⟨h1, by simpa using h2⟩

theorem deleteBook_get_none (books : List Book) (id : String)
    (h : (storeIds books).Nodup) :
    getBook (deleteBook books id).1 id = none := by
  induction books with
  | nil => rfl
  | cons x rest ih =>
    simp only [storeIds, List.map_cons, List.nodup_cons] at h
    by_cases hx : x.id = id
    · simp only [deleteBook, if_pos hx]
      apply (getBook_eq_none_iff rest id).mpr
      intro b hb hbid
      exact h.1 (List.mem_map.mpr ⟨b, hb, by rw [hbid, hx]⟩)
    · simp only [deleteBook, if_neg hx, getBook_cons, if_neg hx]
      exact ih h.2

/-! ## Lemmas about the store ids along operation sequences -/

theorem addBook_ids (books : List Book) (input : BookInput) (newId : String) :
    storeIds (addBook books input newId).1 = storeIds books ++ [newId] := by
  simp [addBook, storeIds, mkNewBook]

theorem deleteBook_ids_sublist (books : List Book) (id : String) :
    (storeIds (deleteBook books id).1).Sublist (storeIds books) := by
  induction books with
  | nil => simp [deleteBook, storeIds]
  | cons b rest ih =>
    by_cases hb : b.id = id
    · simp only [deleteBook, if_pos hb, storeIds, List.map_cons]
      exact List.sublist_cons_self b.id (List.map (fun x => x.id) rest)
    · simp only [deleteBook, if_neg hb, storeIds, List.map_cons]
      exact ih.cons₂ b.id

theorem stepOp_nodup (books : List Book) (op : Op)
    (h : (storeIds books).Nodup)
    (hf : match op with
          | .create _ newId => ∀ b ∈ books, b.id ≠ newId
          | _ => True) :
    (storeIds (stepOp books op)).Nodup := by
  cases op with
  | create input newId =>
    rw [stepOp, addBook_ids]
    refine h.append (List.nodup_singleton newId) ?_
    intro a ha hmem
    obtain ⟨b, hb, rfl⟩ := List.mem_map.mp ha
    exact hf b hb (by simpa using hmem)
  | update input =>
    rw [stepOp, updateBook_ids]
    exact h
  | delete id =>
    exact (deleteBook_ids_sublist books id).nodup h

theorem runOps_nodup (ops : List Op) :
    ∀ books : List Book, (storeIds books).Nodup → FreshRun books ops →
      (storeIds (runOps books ops)).Nodup := by
  induction ops with
  | nil => exact fun books h _ => h
  | cons op rest ih =>
    intro books h hf
    exact ih (stepOp books op) (stepOp_nodup books op h hf.1) hf.2

theorem freshRun_take (ops : List Op) :
    ∀ (books : List Book) (n : Nat), FreshRun books ops →
      FreshRun books (ops.take n) := by
  induction ops with
  | nil => intro books n _; simp [FreshRun]
  | cons op rest ih =>
    intro books n hf
    cases n with
    | zero => exact trivial
    | succ m => exact ⟨hf.1, ih (stepOp books op) m hf.2⟩

/-! ## Claim theorems -/

/-- C10: the store starts pre-populated with exactly seven seed Books,
whose ids are `"n12clfp3K"` through `"eqbOaeNk-"` in declaration order,
and a first `allBooks` call with no search term returns exactly these
seven Books in that order. -/
theorem c10_seed_store :
    books₀.length = 7 ∧
    storeIds books₀ =
      ["n12clfp3K", "TaFvKQmgQ", "3y-67bb6Z", "Rw3sPphui",
       "b8eWGRQo6", "HVL-jHzdH", "eqbOaeNk-"] ∧
    allBooks books₀ none = books₀ :=
  ⟨rfl, rfl, rfl⟩

/-- C7: `getBook` on an id held by no Book in the store returns the
absent value (`none`) as an ordinary result; the resolver is a total
function into `Option Book`, so no failure or control-flow interruption
is possible. -/
theorem c7_get_absent (books : List Book) (id : String)
    (h : ∀ b ∈ books, b.id ≠ id) : getBook books id = none :=
  (getBook_eq_none_iff books id).mpr h

/-- Witness for C7 at a concrete unknown id on the seed store. -/
theorem c7_get_absent_witness : getBook books₀ "unknown-id" = none :=
  c7_get_absent books₀ "unknown-id" (by decide)

/-- C4: `allBooks` with an absent or empty search term returns the
whole store; with a non-empty term it returns, in insertion order (a
sublist of the store), exactly the Books whose lowercased title
contains the lowercased term as a contiguous substring; it is a total
function, hence never fails. -/
theorem c4_allBooks_spec (books : List Book) (search : Option String) :
    ((search = none ∨ search = some "") → allBooks books search = books) ∧
    (allBooks books search).Sublist books ∧
    (∀ s, search = some s → s ≠ "" →
      ∀ b, b ∈ allBooks books search ↔
        b ∈ books ∧ ∃ pre post,
          b.title.toLower.toList = pre ++ s.toLower.toList ++ post) := by
  refine ⟨?_, ?_, ?_⟩
  · rintro (rfl | rfl) <;> simp [allBooks]
  · cases search with
    | none => simp [allBooks]
    | some s =>
      by_cases hs : s = "" <;> simp [allBooks, hs, List.filter_sublist]
  · rintro s rfl hs b
    simp only [allBooks, if_neg hs, List.mem_filter, strIncludes, subList_iff]

/-- Witness for C4: the absent-search branch on the seed store. -/
theorem c4_allBooks_spec_witness : allBooks books₀ none = books₀ :=
  (c4_allBooks_spec books₀ none).1 (Or.inl rfl)

/-- C1: for an update whose id is held by no stored Book, `updateBook`
leaves the store unchanged and returns absent.  Otherwise the updated
Book is the first stored Book with that id, merged field by field:
each of `title`, `description`, `author`, `year`, `rating` is replaced
by the supplied value when that value is truthy (a non-empty string or
a non-zero number) and kept when the supplied value is falsy or
omitted; an input whose mergeable fields are all falsy or omitted
leaves the Book exactly unchanged. -/
theorem c1_update_merge (books : List Book) (input : UpdateBookInput) :
    ((∀ b ∈ books, b.id ≠ input.id) → updateBook books input = (books, none)) ∧
    (∀ b', (updateBook books input).2 = some b' →
      ∃ old, old ∈ books ∧ old.id = input.id ∧
        b' ∈ (updateBook books input).1 ∧
        (∀ t, input.title = some t → t ≠ "" → b'.title = t) ∧
        ((input.title = none ∨ input.title = some "") → b'.title = old.title) ∧
        (∀ d, input.description = some d → d ≠ "" → b'.description = d) ∧
        ((input.description = none ∨ input.description = some "") →
          b'.description = old.description) ∧
        (∀ a, input.author = some a → a ≠ "" → b'.author = a) ∧
        ((input.author = none ∨ input.author = some "") →
          b'.author = old.author) ∧
        (∀ y, input.year = some y → y ≠ 0 → b'.year = y) ∧
        ((input.year = none ∨ input.year = some 0) → b'.year = old.year) ∧
        (∀ r, input.rating = some r → r ≠ 0 → b'.rating = some r) ∧
        ((input.rating = none ∨ input.rating = some 0) →
          b'.rating = old.rating) ∧
        (FalsyUpdate input → b' = old)) := by
  refine ⟨updateBook_not_found books input, ?_⟩
  intro b' h
  obtain ⟨old, hmem, hid, heq, hstore⟩ := updateBook_found books input b' h
  subst heq
  refine ⟨old, hmem, hid, hstore, ?_, ?_, ?_, ?_, ?_, ?_, ?_, ?_, ?_, ?_,
    applyUpdate_falsy old input⟩
  · rintro t ht hne; simp [applyUpdate, jsOrStr, ht, hne]
  · rintro (ht | ht) <;> simp [applyUpdate, jsOrStr, ht]
  · rintro d hd hne; simp [applyUpdate, jsOrStr, hd, hne]
  · rintro (hd | hd) <;> simp [applyUpdate, jsOrStr, hd]
  · rintro a ha hne; simp [applyUpdate, jsOrStr, ha, hne]
  · rintro (ha | ha) <;> simp [applyUpdate, jsOrStr, ha]
  · rintro y hy hne; simp [applyUpdate, jsOrInt, hy, hne]
  · rintro (hy | hy) <;> simp [applyUpdate, jsOrInt, hy]
  · rintro r hr hne; simp [applyUpdate, jsOrRat, hr, hne]
  · rintro (hr | hr) <;> simp [applyUpdate, jsOrRat, hr]

/-- Witness for C1: an unknown id leaves the seed store unchanged. -/
theorem c1_update_merge_witness :
    updateBook books₀
      { id := "no-such-id", title := none, description := none,
        rating := none, author := none, year := none } = (books₀, none) :=
  (c1_update_merge books₀ _).1 (by decide)

/-- C9: a successful `updateBook` never changes the id of any Book (in
particular not that of the target), keeps the store length, and leaves every
position holding a Book whose id differs from the input id exactly as
it was; an update whose id matches no stored Book leaves the entire
store unchanged. -/
theorem c9_update_frame (books : List Book) (input : UpdateBookInput) :
    ((∀ b ∈ books, b.id ≠ input.id) → updateBook books input = (books, none)) ∧
    storeIds (updateBook books input).1 = storeIds books ∧
    (updateBook books input).1.length = books.length ∧
    (∀ i : Nat, (∀ b : Book, books[i]? = some b → b.id ≠ input.id) →
      (updateBook books input).1[i]? = books[i]?) :=
  ⟨updateBook_not_found books input, updateBook_ids books input,
   updateBook_length books input, fun i => updateBook_frame books input i⟩

/-- Witness for C9: position 0 of the seed store is untouched by an
update aimed at the Book at position 2. -/
theorem c9_update_frame_witness :
    (updateBook books₀
      { id := "3y-67bb6Z", title := some "F451", description := none,
        rating := none, author := none, year := none }).1[0]? = books₀[0]? :=
  (c9_update_frame books₀ _).2.2.2 0 (by decide)

/-- C8: on a store with pairwise distinct ids, `deleteBook` followed by
`getBook` on the same id yields absent; when a Book with the id exists,
`deleteBook` returns that Book and shrinks the store by exactly one;
when no Book has the id, `deleteBook` returns absent and leaves the
store (hence its size) unchanged. -/
theorem c8_delete_get (books : List Book) (id : String)
    (h : (storeIds books).Nodup) :
    getBook (deleteBook books id).1 id = none ∧
    (∀ b, getBook books id = some b →
      (deleteBook books id).2 = some b ∧
      (deleteBook books id).1.length + 1 = books.length) ∧
    (getBook books id = none → deleteBook books id = (books, none)) :=
  ⟨deleteBook_get_none books id h,
   fun b hb => deleteBook_found books id b hb,
   fun hn => deleteBook_not_found books id
     ((getBook_eq_none_iff books id).mp hn)⟩

/-- Witness for C8: deleting the first seed Book makes a subsequent
lookup of its id absent. -/
theorem c8_delete_get_witness :
    getBook (deleteBook books₀ "n12clfp3K").1 "n12clfp3K" = none :=
  (c8_delete_get books₀ "n12clfp3K" (by decide)).1

/-- C5: `addBook` appends the new Book to the store and its effect list
places the store append strictly before the publish on the
`"bookSub"` topic; the published payload and the returned Book are both
exactly the stored Book, and the `bookSub` subscription resolver
forwards a delivered payload by unwrapping the envelope and nothing
else. -/
theorem c5_store_before_publish (books : List Book) (input : BookInput)
    (newId : String) :
    (addBook books input newId).2.2 =
      [Action.store (addBook books input newId).2.1,
       Action.publish "bookSub" (addBook books input newId).2.1] ∧
    (addBook books input newId).1 = books ++ [(addBook books input newId).2.1] ∧
    bookSubResolve { addBook := (addBook books input newId).2.1 } =
      (addBook books input newId).2.1 :=
  ⟨rfl, rfl, rfl⟩

/-- C6 counterexample: a create input supplying `rating = 0` does not
store `0`; the `input.rating || null` coercion stores the absent value
instead, so the rating is not "stored as given, including the value
0". -/
theorem c6_rating_zero_counterexample :
    (addBook [] { title := "Dune", description := none, rating := some 0,
                  author := "Herbert", year := 1965 } "X1").2.1.rating = none ∧
    some (0 : Rat) ≠ (none : Option Rat) :=
  ⟨by decide, by decide⟩

/-- C6 (amended): a created Book is appended and returned carrying the
generated id (non-empty whenever the generator output is non-empty);
its `description` equals the supplied description when supplied and
the empty string when omitted; its `rating` equals the supplied rating
when supplied and non-zero, is absent when omitted, and — the quirk —
is also absent when the supplied rating is exactly `0`; `title`,
`author` and `year` are stored as supplied. -/
theorem c6_create_defaults (books : List Book) (input : BookInput)
    (newId : String) :
    addBook books input newId =
      (books ++ [mkNewBook input newId], mkNewBook input newId,
       [Action.store (mkNewBook input newId),
        Action.publish "bookSub" (mkNewBook input newId)]) ∧
    (mkNewBook input newId).id = newId ∧
    (newId ≠ "" → (mkNewBook input newId).id ≠ "") ∧
    (∀ d, input.description = some d → (mkNewBook input newId).description = d) ∧
    (input.description = none → (mkNewBook input newId).description = "") ∧
    (input.rating = none → (mkNewBook input newId).rating = none) ∧
    (∀ r, input.rating = some r → r ≠ 0 → (mkNewBook input newId).rating = some r) ∧
    (input.rating = some 0 → (mkNewBook input newId).rating = none) ∧
    (mkNewBook input newId).title = input.title ∧
    (mkNewBook input newId).author = input.author ∧
    (mkNewBook input newId).year = input.year := by
  refine ⟨rfl, rfl, fun h => h, ?_, ?_, ?_, ?_, ?_, rfl, rfl, rfl⟩
  · intro d hd
    by_cases hde : d = "" <;> simp [mkNewBook, jsOrStr, hd, hde]
  · intro hd; simp [mkNewBook, jsOrStr, hd]
  · intro hr; simp [mkNewBook, jsOrRat, hr]
  · intro r hr hne; simp [mkNewBook, jsOrRat, hr, hne]
  · intro hr; simp [mkNewBook, jsOrRat, hr]

/-- Witness for C6 at a concrete create on the empty store. -/
theorem c6_create_defaults_witness :
    (mkNewBook { title := "Dune", description := none, rating := none,
                 author := "Herbert", year := 1965 } "X1").id ≠ "" :=
  (c6_create_defaults []
    { title := "Dune", description := none, rating := none,
      author := "Herbert", year := 1965 } "X1").2.2.1 (by decide)

/-- C2 counterexample: a create input whose `title` is present but
empty passes the non-null coercion of the schema, so `createBook` succeeds
and appends a Book (with empty title) to the store instead of failing
with a validation error. -/
theorem c2_empty_title_counterexample :
    createBook books₀
      { title := some "", description := none, rating := none,
        author := some "Herbert", year := some 1965 } "X1" =
      Except.ok
        (books₀ ++ [mkNewBook { title := "", description := none, rating := none, author := "Herbert", year := 1965 } "X1"],
         mkNewBook { title := "", description := none, rating := none, author := "Herbert", year := 1965 } "X1",
         [Action.store (mkNewBook { title := "", description := none, rating := none, author := "Herbert", year := 1965 } "X1"),
          Action.publish "bookSub" (mkNewBook { title := "", description := none, rating := none, author := "Herbert", year := 1965 } "X1")]) ∧
    books₀ ++ [mkNewBook { title := "", description := none, rating := none, author := "Herbert", year := 1965 } "X1"] ≠ books₀ :=
  ⟨rfl, fun h => by simpa using congrArg List.length h⟩

/-- C2 (amended): a create input whose `title` is missing/null or whose
`author` is missing/null is rejected by the non-null input
coercion of the schema with a validation error before the resolver runs, so no Book
is appended; an empty-but-present `title` or `author` passes the
non-null check. -/
theorem c2_create_validation (books : List Book) (raw : RawBookInput)
    (newId : String) (h : raw.title = none ∨ raw.author = none) :
    createBook books raw newId = .error .validationError := by
  obtain ⟨t, d, r, a, y⟩ := raw
  rcases h with h | h
  · simp only at h
    subst h
    cases a <;> cases y <;> rfl
  · simp only at h
    subst h
    cases t <;> cases y <;> rfl

/-- Witness for C2 at a concrete author-less input. -/
theorem c2_create_validation_witness :
    createBook books₀
      { title := some "Dune", description := none, rating := none,
        author := none, year := some 1965 } "X1" =
      .error .validationError :=
  c2_create_validation books₀ _ "X1" (Or.inr rfl)

/-- C3: along any operation sequence from the seed store in which each
create receives an id not already present (the contract of the
`nanoid()` unique-id generator), the store holds pairwise-distinct
Book ids at every intermediate point. -/
theorem c3_id_uniqueness (ops : List Op) (h : FreshRun books₀ ops) :
    ∀ n : Nat, (storeIds (runOps books₀ (ops.take n))).Nodup :=
  fun n =>
    runOps_nodup (ops.take n) books₀ (by decide)
      (freshRun_take ops books₀ n h)

/-- Witness for C3: a concrete delete-then-create run keeps ids
pairwise distinct at every prefix length. -/
theorem c3_id_uniqueness_witness :
    (storeIds (runOps books₀
      (([Op.delete "n12clfp3K",
         Op.create { title := "Dune", description := none, rating := none,
                     author := "Herbert", year := 1965 } "XYZ"]).take 2))).Nodup :=
  c3_id_uniqueness
    [Op.delete "n12clfp3K",
     Op.create { title := "Dune", description := none, rating := none,
                 author := "Herbert", year := 1965 } "XYZ"]
    ⟨trivial, by decide, trivial⟩ 2

end BookServer
